import Mathlib

/-!
Shallow embedding of the Scheduled-Delivery Engine of the slack-connect-app
backend: the message repository (`messageRepository.ts`), the token service
(`tokenService.ts`), the delivery scheduler (`messageScheduler.ts`) and the
cancel endpoint (`slackController.ts`).

Times are naturals: `now` is in milliseconds (JS `Date.now()`), stored
credential `expiresAt` values are in seconds, as in the source. Databases are
association lists; Prisma lookups become `List.find?`, `updateMany`/`deleteMany`
become `List.map`/`List.filter`. JS truthiness of optional strings and numbers
is modelled explicitly (`some ""` and `some 0` are falsy).
-/

namespace SlackConnect

/-- Message delivery status, as stored in the `status` column
(default `PENDING` per the Prisma migration). -/
inductive Status where
  | PENDING
  | PROCESSING
  | SENT
  | FAILED
deriving DecidableEq, Repr

/-- JS truthiness of an optional string: `undefined`/`null` and `""` are falsy. -/
def truthyS : Option String → Bool
  | none => false
  | some s => !s.isEmpty

/-- JS truthiness of an optional number: `undefined`/`null` and `0` are falsy. -/
def truthyN : Option Nat → Bool
  | none => false
  | some n => n != 0

/-- JS `a || b` on optional strings: `b` when `a` is falsy. -/
def jsOr (a b : Option String) : Option String :=
  if truthyS a then a else b

/-- One sub-credential of an installation record, i.e. the fields of
`installationData.bot` / `installationData.user` that the engine reads:
`token`, `refreshToken`, `expiresAt` (seconds). -/
structure SubCred where
  token : Option String
  refreshToken : Option String
  expiresAt : Option Nat
deriving DecidableEq, Repr

/-- The loosely-typed installation `data` JSON blob, with the alternate
field names the scheduler and controllers read defensively
(`authed_user.access_token`, `access_token`, `bot_token`, `user_token`). -/
structure InstallationData where
  bot : Option SubCred := none
  user : Option SubCred := none
  authed_user_access_token : Option String := none
  access_token : Option String := none
  bot_token : Option String := none
  user_token : Option String := none
deriving DecidableEq, Repr

/-- A row of the `SlackInstallation` table. -/
structure SlackInstallation where
  id : String
  teamId : String
  userId : String
  data : InstallationData
deriving DecidableEq, Repr

/-- Prisma `findUnique` on the `teamId_userId` composite key
(`installationRepository.findInstallationByTeamIdAndUserId`). -/
def findInstallationByTeamIdAndUserId (db : List SlackInstallation)
    (teamId userId : String) : Option SlackInstallation :=
  db.find? (fun i => i.teamId == teamId && i.userId == userId)

/-- Prisma `findFirst` by `teamId` (the fallback lookup in
`getValidAccessToken`). -/
def findFirstByTeamId (db : List SlackInstallation) (teamId : String) :
    Option SlackInstallation :=
  db.find? (fun i => i.teamId == teamId)

/-- Result of a successful `oauth.v2.access` refresh-grant call: the fields
the token service reads (`access_token`, `refresh_token`, `expires_in`). -/
structure RefreshResult where
  access_token : String
  refresh_token : String
  expires_in : Nat
deriving DecidableEq, Repr

/-- Environment of one token-service invocation: the current time in
milliseconds and the outcome the external refresh call would produce
(`none` models the call throwing / failing). -/
structure TokenEnv where
  now : Nat
  refreshOutcome : Option RefreshResult
deriving DecidableEq, Repr

/-- Observable outcome of a token-service invocation: the returned token
(`none` is the JS `null`), the installation table after the call, and how
many refresh-grant calls were made. -/
structure TokenOutcome where
  result : Option String
  db : List SlackInstallation
  refreshCalls : Nat
deriving DecidableEq, Repr

/-- Embedding of `refreshBotToken` (tokenService.ts): on refresh failure
return the old token and write nothing; on success overwrite the `bot`
object with the new `token`, `refreshToken` and
`expiresAt = Date.now() / 1000 + expires_in`, spread the rest of the
installation data unchanged, persist, and return the new access token. -/
def refreshBotToken (env : TokenEnv) (db : List SlackInstallation)
    (installationId : String) (installationData : InstallationData)
    (currentToken : String) : TokenOutcome :=
  match env.refreshOutcome with
  | none => { result := some currentToken, db := db, refreshCalls := 1 }
  | some r =>
      let oldBot := installationData.bot.getD
        { token := none, refreshToken := none, expiresAt := none }
      let newBot : SubCred :=
        { oldBot with
            token := some r.access_token
            refreshToken := some r.refresh_token
            expiresAt := some (env.now / 1000 + r.expires_in) }
      let newData : InstallationData := { installationData with bot := some newBot }
      { result := some r.access_token
        db := db.map (fun inst =>
          if inst.id == installationId then { inst with data := newData } else inst)
        refreshCalls := 1 }

/-- The per-installation body of `getValidAccessToken` (tokenService.ts),
textually duplicated in the source for the user-specific and the
team-fallback lookup: bail out with `null` when `bot` is absent; when
`expiresAt`, `refreshToken` or `token` is falsy return `token || null`
without refreshing; when `expiresAt * 1000 > Date.now() + 10 * 60 * 1000`
return the stored token unchanged; otherwise refresh. -/
def resolveBotToken (env : TokenEnv) (db : List SlackInstallation)
    (inst : SlackInstallation) : TokenOutcome :=
  match inst.data.bot with
  | none => { result := none, db := db, refreshCalls := 0 }
  | some bot =>
      if !truthyN bot.expiresAt || !truthyS bot.refreshToken || !truthyS bot.token then
        { result := if truthyS bot.token then bot.token else none
          db := db, refreshCalls := 0 }
      else
        if bot.expiresAt.getD 0 * 1000 > env.now + 10 * 60 * 1000 then
          { result := bot.token, db := db, refreshCalls := 0 }
        else
          refreshBotToken env db inst.id inst.data (bot.token.getD "")

/-- The team-only fallback branch of `getValidAccessToken`: `findFirst` by
`teamId`, `null` when nothing is found. -/
def getValidAccessTokenFallback (env : TokenEnv) (db : List SlackInstallation)
    (teamId : String) : TokenOutcome :=
  match findFirstByTeamId db teamId with
  | none => { result := none, db := db, refreshCalls := 0 }
  | some inst => resolveBotToken env db inst

/-- Embedding of `getValidAccessToken` (tokenService.ts): when a truthy
`userId` is supplied, try the `teamId_userId` unique lookup and use that
installation; otherwise, or when that lookup misses, fall back to the first
installation of the team. -/
def getValidAccessToken (env : TokenEnv) (db : List SlackInstallation)
    (teamId : String) (userId : Option String) : TokenOutcome :=
  if truthyS userId then
    match findInstallationByTeamIdAndUserId db teamId (userId.getD "") with
    | some inst => resolveBotToken env db inst
    | none => getValidAccessTokenFallback env db teamId
  else
    getValidAccessTokenFallback env db teamId

/-- Embedding of `getUserToken` (tokenService.ts): unique lookup by
`(teamId, userId)`, then `installationData.user?.token || null`. No expiry
check, no refresh, no write. -/
def getUserToken (db : List SlackInstallation) (teamId userId : String) :
    Option String :=
  match findInstallationByTeamIdAndUserId db teamId userId with
  | none => none
  | some inst =>
      let t := inst.data.user.bind SubCred.token
      if truthyS t then t else none

/-- A row of the `ScheduledMessage` table. `sendAt` is in milliseconds. -/
structure ScheduledMessage where
  id : String
  channelId : String
  message : String
  sendAt : Nat
  sendAsUser : Bool
  status : Status
  installationId : String
deriving DecidableEq, Repr

/-- Prisma `findUnique` on a message id
(`messageRepository.findScheduledMessageById`). -/
def findScheduledMessageById (db : List ScheduledMessage) (id : String) :
    Option ScheduledMessage :=
  db.find? (fun m => m.id == id)

/-- Prisma `delete` by message id
(`messageRepository.deleteScheduledMessageById`); unconditional on status. -/
def deleteScheduledMessageById (db : List ScheduledMessage) (id : String) :
    List ScheduledMessage :=
  db.filter (fun m => m.id != id)

/-- Prisma `update` of the `status` column by id
(`messageRepository.updateMessageStatus`; the source restricts the argument
to `SENT`/`FAILED` by its type, which its call sites respect). -/
def updateMessageStatus (db : List ScheduledMessage) (id : String)
    (status : Status) : List ScheduledMessage :=
  db.map (fun m => if m.id == id then { m with status := status } else m)

/-- Prisma `deleteMany` by installation id
(`messageRepository.deleteMessagesByInstallationId`). -/
def deleteMessagesByInstallationId (db : List ScheduledMessage)
    (installationId : String) : List ScheduledMessage :=
  db.filter (fun m => m.installationId != installationId)

/-- Prisma `create` (`messageRepository.createScheduledMessage`): the row is
inserted with the schema default status `PENDING`. -/
def createScheduledMessage (db : List ScheduledMessage) (m : ScheduledMessage) :
    List ScheduledMessage :=
  db ++ [{ m with status := Status.PENDING }]

/-- The `findMany` step of `findAndMarkDueMessages`: every message with
`sendAt <= now` and status `PENDING`. -/
def dueFilter (now : Nat) (db : List ScheduledMessage) : List ScheduledMessage :=
  db.filter (fun m => m.sendAt ≤ now && m.status == Status.PENDING)

/-- The `updateMany` step of `findAndMarkDueMessages`: set status
`PROCESSING` on every row whose id is in the claimed id list (the `where`
clause filters on ids only, not on status). -/
def markProcessing (db : List ScheduledMessage) (ids : List String) :
    List ScheduledMessage :=
  db.map (fun m =>
    if ids.contains m.id then { m with status := Status.PROCESSING } else m)

/-- Embedding of `findAndMarkDueMessages` run to completion without
interleaving: the claimed batch together with the table after the
`PROCESSING` write. -/
def findAndMarkDueMessages (now : Nat) (db : List ScheduledMessage) :
    List ScheduledMessage × List ScheduledMessage :=
  let dueMessages := dueFilter now db
  (dueMessages, markProcessing db (dueMessages.map (fun m => m.id)))

/-- Racy schedule of two concurrent `findAndMarkDueMessages` invocations in
which both `findMany` reads complete before either `updateMany` write (the
two awaited Prisma calls are distinct suspension points, so this
interleaving is reachable). Returns cycle A's batch, cycle B's batch, and
the final table. -/
def overlappedClaims (now : Nat) (db : List ScheduledMessage) :
    List ScheduledMessage × List ScheduledMessage × List ScheduledMessage :=
  let dueA := dueFilter now db
  let dueB := dueFilter now db
  let s1 := markProcessing db (dueA.map (fun m => m.id))
  let s2 := markProcessing s1 (dueB.map (fun m => m.id))
  (dueA, dueB, s2)

/-- Outcome of one `client.chat.postMessage` gateway call: an explicit-ok
response, a response with `ok` false, or a thrown exception. -/
inductive SendResult where
  | ok
  | apiError
  | threw
deriving DecidableEq, Repr

/-- The scheduler's defensive user-token lookup
(`authed_user?.access_token || user?.token || user_token`). -/
def schedulerUserToken (d : InstallationData) : Option String :=
  jsOr (jsOr d.authed_user_access_token (d.user.bind SubCred.token)) d.user_token

/-- The scheduler's defensive bot-token lookup
(`bot?.token || access_token || bot_token`). -/
def schedulerBotToken (d : InstallationData) : Option String :=
  jsOr (jsOr (d.bot.bind SubCred.token) d.access_token) d.bot_token

/-- Token the scheduler selects for a message: user fields when
`sendAsUser`, bot fields otherwise. Read straight from the stored record. -/
def schedulerToken (d : InstallationData) (sendAsUser : Bool) : Option String :=
  if sendAsUser then schedulerUserToken d else schedulerBotToken d

/-- Final status the scheduler writes for one claimed message
(`sendDueMessages` loop body): `FAILED` when the joined installation data is
missing, when the selected token is falsy (the code throws and the local
catch writes `FAILED`), or when the gateway errors or throws; `SENT` on an
explicit-ok gateway response. -/
def dispatchStatus (send : SendResult) (d : Option InstallationData)
    (sendAsUser : Bool) : Status :=
  match d with
  | none => Status.FAILED
  | some dd =>
      if !truthyS (schedulerToken dd sendAsUser) then Status.FAILED
      else
        match send with
        | SendResult.ok => Status.SENT
        | SendResult.apiError => Status.FAILED
        | SendResult.threw => Status.FAILED

/-- The Prisma `include: installation` join on a claimed message. -/
def joinInstallation (instDb : List SlackInstallation) (m : ScheduledMessage) :
    Option SlackInstallation :=
  instDb.find? (fun i => i.id == m.installationId)

/-- Observable record of dispatching one claimed message: which message,
which token the gateway call was given (`none` when no call was made), and
the final status written back. -/
structure DispatchRecord where
  msgId : String
  usedToken : Option String
  finalStatus : Status
deriving DecidableEq, Repr

/-- Dispatch record of one claimed message as `sendDueMessages` handles it:
token from the stored installation record, status from `dispatchStatus`. -/
def dispatchRecord (send : SendResult) (inst : Option SlackInstallation)
    (m : ScheduledMessage) : DispatchRecord :=
  let d := inst.map SlackInstallation.data
  { msgId := m.id
    usedToken := d.bind (fun dd => schedulerToken dd m.sendAsUser)
    finalStatus := dispatchStatus send (d) m.sendAsUser }

/-- Sequential dispatch loop of `sendDueMessages`: fold the per-message
status writes over the claimed batch, in order. `send` gives each
message's gateway outcome, keyed by message id. -/
def dispatchAll (send : String → SendResult) (instDb : List SlackInstallation)
    (batch : List ScheduledMessage) (db : List ScheduledMessage) :
    List ScheduledMessage :=
  batch.foldl
    (fun acc m =>
      updateMessageStatus acc m.id
        (dispatchRecord (send m.id) (joinInstallation instDb m) m).finalStatus)
    db

/-- One full scheduler cycle (`sendDueMessages`): claim, then dispatch each
claimed message in order. Returns the dispatch records and the final
message table. -/
def runCycle (send : String → SendResult) (now : Nat)
    (instDb : List SlackInstallation) (db : List ScheduledMessage) :
    List DispatchRecord × List ScheduledMessage :=
  let claimed := findAndMarkDueMessages now db
  (claimed.1.map (fun m => dispatchRecord (send m.id) (joinInstallation instDb m) m),
   dispatchAll send instDb claimed.1 claimed.2)

/-- HTTP outcomes of the cancel endpoint
(`slackController.cancelScheduledMessage`). -/
inductive CancelResult where
  | notAuthenticated
  | installationNotFound
  | messageNotFound
  | forbidden
  | cancelled
deriving DecidableEq, Repr

/-- Embedding of `cancelScheduledMessage` (slackController.ts): 401 when the
session lacks userId/teamId, 404 when the caller has no installation, 404
when the message id is absent, 403 when the message belongs to another
installation, otherwise delete the row — with no check of its status. -/
def cancelScheduledMessage (instDb : List SlackInstallation)
    (db : List ScheduledMessage) (userId teamId : Option String) (id : String) :
    CancelResult × List ScheduledMessage :=
  if !truthyS userId || !truthyS teamId then (CancelResult.notAuthenticated, db)
  else
    match findInstallationByTeamIdAndUserId instDb (teamId.getD "") (userId.getD "") with
    | none => (CancelResult.installationNotFound, db)
    | some inst =>
        match findScheduledMessageById db id with
        | none => (CancelResult.messageNotFound, db)
        | some message =>
            if message.installationId != inst.id then (CancelResult.forbidden, db)
            else (CancelResult.cancelled, deleteScheduledMessageById db id)

/-- The operations of the system that touch the message table: creation
(status defaults to `PENDING`), one complete scheduler cycle, cancellation
(deletion by id), and the disconnect cleanup. -/
inductive SysOp where
  | create (m : ScheduledMessage)
  | cycle (send : String → SendResult)
  | cancel (id : String)
  | disconnect (installationId : String)

/-- Effect of one system operation on the message table. -/
def applyOp (now : Nat) (instDb : List SlackInstallation)
    (db : List ScheduledMessage) : SysOp → List ScheduledMessage
  | SysOp.create m => createScheduledMessage db m
  | SysOp.cycle send => (runCycle send now instDb db).2
  | SysOp.cancel id => deleteScheduledMessageById db id
  | SysOp.disconnect iid => deleteMessagesByInstallationId db iid

/-- Status of the message with the given id, when present. -/
def statusOf (db : List ScheduledMessage) (id : String) : Option Status :=
  (findScheduledMessageById db id).map (fun m => m.status)

/-- A due `PENDING` message, used in concrete executions. -/
def msgDue : ScheduledMessage :=
  { id := "m1", channelId := "C1", message := "hi", sendAt := 500,
    sendAsUser := false, status := Status.PENDING, installationId := "i1" }

/-- A message that has already been delivered (`SENT`), owned by
installation "i1". -/
def msgSent : ScheduledMessage :=
  { id := "m1", channelId := "C1", message := "hi", sendAt := 500,
    sendAsUser := false, status := Status.SENT, installationId := "i1" }

/-- An installation whose bot credential expires soon (300 s after the
epoch) and carries a refresh token. -/
def instExpiring : SlackInstallation :=
  { id := "i1", teamId := "T1", userId := "U1",
    data := { bot := some { token := some "oldtok", refreshToken := some "r1",
                            expiresAt := some 300 } } }

/-- An installation whose user credential is long expired yet holds a
refresh token. -/
def instUserExpired : SlackInstallation :=
  { id := "i2", teamId := "T1", userId := "U1",
    data := { user := some { token := some "oldu", refreshToken := some "ur",
                             expiresAt := some 1 } } }

/-- An installation belonging to a different user ("U2") of team "T1"
whose bot token never expires. -/
def instOtherUser : SlackInstallation :=
  { id := "i3", teamId := "T1", userId := "U2",
    data := { bot := some { token := some "othertok", refreshToken := none,
                            expiresAt := none } } }

/-- A token-service environment in which the refresh grant would succeed
and return a fresh token. -/
def envRefreshOk : TokenEnv :=
  { now := 1000,
    refreshOutcome := some { access_token := "newtok", refresh_token := "r2",
                             expires_in := 43200 } }

/-- An environment in which the refresh grant would fail (throw). -/
def envRefreshFail : TokenEnv :=
  { now := 1000, refreshOutcome := none }

/-- An installation whose bot credential is fresh for far longer than the
ten-minute margin. -/
def instFresh : SlackInstallation :=
  { id := "i4", teamId := "T2", userId := "U3",
    data := { bot := some { token := some "freshtok", refreshToken := some "r9",
                            expiresAt := some 1000000 } } }

/-- Truthiness of a nonempty string literal. -/
theorem truthyS_some_of_ne (s : String) (h : s ≠ "") : truthyS (some s) = true := by
  unfold truthyS
  simp only [Bool.not_eq_true']
  rw [← Bool.not_eq_true]
  intro hc
  exact h ((String.isEmpty_iff s).mp hc)

/-- Lookup by id commutes with an id-preserving row transformation. -/
theorem findById_map_preserve (g : ScheduledMessage → ScheduledMessage)
    (hg : ∀ m, (g m).id = m.id) (db : List ScheduledMessage) (id : String) :
    findScheduledMessageById (db.map g) id =
      Option.map g (findScheduledMessageById db id) := by
  unfold findScheduledMessageById
  rw [List.find?_map]
  have hp : ((fun m : ScheduledMessage => m.id == id) ∘ g) =
      (fun m : ScheduledMessage => m.id == id) := by
    funext m
    simp [Function.comp, hg m]
  rw [hp]

/-- Status lookup through an id-preserving row transformation. -/
theorem statusOf_map_preserve (g : ScheduledMessage → ScheduledMessage)
    (hg : ∀ m, (g m).id = m.id) (db : List ScheduledMessage) (id : String) :
    statusOf (db.map g) id =
      (findScheduledMessageById db id).map (fun m => (g m).status) := by
  unfold statusOf
  rw [findById_map_preserve g hg]
  cases findScheduledMessageById db id <;> rfl

/-- A found row matches the requested id. -/
theorem findById_id_eq {db : List ScheduledMessage} {id : String}
    {m : ScheduledMessage} (h : findScheduledMessageById db id = some m) :
    m.id = id := by
  have := List.find?_some h
  simpa using this

/-- A found row is a member of the table. -/
theorem findById_mem {db : List ScheduledMessage} {id : String}
    {m : ScheduledMessage} (h : findScheduledMessageById db id = some m) :
    m ∈ db :=
  List.mem_of_find?_eq_some h

/-- With pairwise-distinct ids, lookup of a member's id returns that member. -/
theorem findById_of_mem (db : List ScheduledMessage) (m : ScheduledMessage)
    (hnd : (db.map (fun x => x.id)).Nodup) (hm : m ∈ db) :
    findScheduledMessageById db m.id = some m := by
  induction db with
  | nil => cases hm
  | cons a t ih =>
      rw [List.map_cons, List.nodup_cons] at hnd
      unfold findScheduledMessageById
      rw [List.find?_cons]
      by_cases h : a.id = m.id
      · have hma : m = a := by
          rcases List.mem_cons.mp hm with h' | h'
          · exact h'
          · exact absurd (h ▸ List.mem_map_of_mem (fun x => x.id) h') hnd.1
        simp [h, hma]
      · have hmt : m ∈ t := by
          rcases List.mem_cons.mp hm with h' | h'
          · exact absurd (h' ▸ rfl) h
          · exact h'
        have hne : (a.id == m.id) = false := by simp [h]
        rw [hne]
        exact ih hnd.2 hmt

/-- Unpacking a successful status lookup into a witnessing row. -/
theorem statusOf_eq_some_elim {db : List ScheduledMessage} {id : String}
    {s : Status} (h : statusOf db id = some s) :
    ∃ m ∈ db, m.id = id ∧ m.status = s := by
  unfold statusOf at h
  cases hf : findScheduledMessageById db id with
  | none => rw [hf] at h; cases h
  | some m =>
      rw [hf] at h
      exact ⟨m, findById_mem hf, findById_id_eq hf, by simpa using h⟩

/-- Membership gives a successful status lookup. -/
theorem statusOf_isSome_of_mem (db : List ScheduledMessage)
    (m : ScheduledMessage) (hm : m ∈ db) : (statusOf db m.id).isSome := by
  unfold statusOf findScheduledMessageById
  rw [Option.isSome_map', List.find?_isSome]
  exact ⟨m, hm, by simp⟩

/-- Two members sharing an id are equal when ids are pairwise distinct. -/
theorem eq_of_mem_same_id {db : List ScheduledMessage}
    {m m' : ScheduledMessage} (hnd : (db.map (fun x => x.id)).Nodup)
    (hm : m ∈ db) (hm' : m' ∈ db) (h : m.id = m'.id) : m = m' :=
  List.inj_on_of_nodup_map hnd hm hm' h

/-- Status lookup after `updateMessageStatus`, pointwise form. -/
theorem statusOf_update (db : List ScheduledMessage) (i : String) (st : Status)
    (id : String) :
    statusOf (updateMessageStatus db i st) id =
      (findScheduledMessageById db id).map
        (fun m => if m.id == i then st else m.status) := by
  unfold updateMessageStatus
  rw [statusOf_map_preserve _ (fun m => by split <;> rfl)]
  congr 1
  funext m
  dsimp only
  split <;> rfl

/-- Updating a different id leaves a status lookup unchanged. -/
theorem statusOf_update_other (db : List ScheduledMessage) (i id : String)
    (st : Status) (h : id ≠ i) :
    statusOf (updateMessageStatus db i st) id = statusOf db id := by
  rw [statusOf_update]
  unfold statusOf
  cases hf : findScheduledMessageById db id with
  | none => rfl
  | some m =>
      have hid : m.id = id := findById_id_eq hf
      simp [hid, h]

/-- Updating an id rewrites its status lookup to the written status. -/
theorem statusOf_update_self (db : List ScheduledMessage) (id : String)
    (st : Status) :
    statusOf (updateMessageStatus db id st) id =
      (statusOf db id).map (fun _ => st) := by
  rw [statusOf_update]
  unfold statusOf
  cases hf : findScheduledMessageById db id with
  | none => rfl
  | some m =>
      have hid : m.id = id := findById_id_eq hf
      simp [hid]

/-- Status lookup after the `PROCESSING` bulk write, pointwise form. -/
theorem statusOf_markProcessing (db : List ScheduledMessage)
    (ids : List String) (id : String) :
    statusOf (markProcessing db ids) id =
      (findScheduledMessageById db id).map
        (fun m => if ids.contains m.id then Status.PROCESSING else m.status) := by
  unfold markProcessing
  rw [statusOf_map_preserve _ (fun m => by split <;> rfl)]
  congr 1
  funext m
  dsimp only
  split <;> rfl

/-- A status lookup survives `updateMessageStatus` (presence is preserved). -/
theorem statusOf_update_isSome (db : List ScheduledMessage) (i : String)
    (st : Status) (id : String) :
    (statusOf (updateMessageStatus db i st) id).isSome =
      (statusOf db id).isSome := by
  rw [statusOf_update]
  unfold statusOf
  cases findScheduledMessageById db id <;> rfl

/-- Dispatching a batch of messages none of which has the looked-up id
leaves that status unchanged. -/
theorem statusOf_dispatchAll_not_mem (send : String → SendResult)
    (instDb : List SlackInstallation) (batch : List ScheduledMessage)
    (db : List ScheduledMessage) (id : String)
    (h : ∀ m ∈ batch, m.id ≠ id) :
    statusOf (dispatchAll send instDb batch db) id = statusOf db id := by
  induction batch generalizing db with
  | nil => rfl
  | cons a t ih =>
      unfold dispatchAll
      rw [List.foldl_cons]
      have ha : a.id ≠ id := h a (List.mem_cons_self a t)
      have ht : ∀ m ∈ t, m.id ≠ id := fun m hm => h m (List.mem_cons_of_mem a hm)
      rw [show ∀ d, List.foldl _ d t = dispatchAll send instDb t d from fun d => rfl]
      rw [ih _ ht]
      exact statusOf_update_other _ _ _ _ (fun he => ha he.symm)

/-- Dispatching a batch with pairwise-distinct ids gives each member the
final status of its own dispatch record, whatever the other members'
outcomes. -/
theorem statusOf_dispatchAll_mem (send : String → SendResult)
    (instDb : List SlackInstallation) (batch : List ScheduledMessage)
    (db : List ScheduledMessage) (m : ScheduledMessage)
    (hnd : (batch.map (fun x => x.id)).Nodup) (hm : m ∈ batch)
    (hpres : (statusOf db m.id).isSome) :
    statusOf (dispatchAll send instDb batch db) m.id =
      some (dispatchRecord (send m.id) (joinInstallation instDb m) m).finalStatus := by
  induction batch generalizing db with
  | nil => cases hm
  | cons a t ih =>
      rw [List.map_cons, List.nodup_cons] at hnd
      unfold dispatchAll
      rw [List.foldl_cons]
      rw [show ∀ d, List.foldl _ d t = dispatchAll send instDb t d from fun d => rfl]
      rcases List.mem_cons.mp hm with hma | hmt
      · subst hma
        have ht : ∀ x ∈ t, x.id ≠ m.id := by
          intro x hx he
          exact hnd.1 (he ▸ List.mem_map_of_mem (fun y => y.id) hx)
        rw [statusOf_dispatchAll_not_mem send instDb t _ m.id ht]
        rw [statusOf_update_self]
        cases hf : statusOf db m.id with
        | none => rw [hf] at hpres; cases hpres
        | some s => rfl
      · have hne : m.id ≠ a.id := by
          intro he
          exact hnd.1 (he ▸ List.mem_map_of_mem (fun y => y.id) hmt)
        have hpres' : (statusOf (updateMessageStatus db a.id
            (dispatchRecord (send a.id) (joinInstallation instDb a) a).finalStatus) m.id).isSome := by
          rw [statusOf_update_isSome]; exact hpres
        exact ih _ hnd.2 hmt hpres'

/-- Membership in the due batch, unpacked. -/
theorem mem_dueFilter {now : Nat} {db : List ScheduledMessage}
    {m : ScheduledMessage} :
    m ∈ dueFilter now db ↔ m ∈ db ∧ m.sendAt ≤ now ∧ m.status = Status.PENDING := by
  unfold dueFilter
  rw [List.mem_filter]
  simp [and_assoc]

/-- Distinct table ids give distinct batch ids. -/
theorem dueFilter_ids_nodup (now : Nat) (db : List ScheduledMessage)
    (hnd : (db.map (fun x => x.id)).Nodup) :
    ((dueFilter now db).map (fun x => x.id)).Nodup :=
  ((List.filter_sublist db).map (fun x => x.id)).nodup hnd

/-- Status lookup after one full scheduler cycle: a claimed message ends at
the final status of its own dispatch record; every other id keeps its prior
status. -/
theorem statusOf_runCycle (send : String → SendResult) (now : Nat)
    (instDb : List SlackInstallation) (db : List ScheduledMessage)
    (id : String) (hnd : (db.map (fun x => x.id)).Nodup) :
    statusOf (runCycle send now instDb db).2 id =
      match (dueFilter now db).find? (fun m => m.id == id) with
      | some m =>
          some (dispatchRecord (send m.id) (joinInstallation instDb m) m).finalStatus
      | none => statusOf db id := by
  have hdue_nd := dueFilter_ids_nodup now db hnd
  show statusOf (dispatchAll send instDb (dueFilter now db)
      (markProcessing db ((dueFilter now db).map (fun m => m.id)))) id = _
  cases hf : (dueFilter now db).find? (fun m => m.id == id) with
  | some m =>
      have hid : m.id = id := by simpa using List.find?_some hf
      have hmem : m ∈ dueFilter now db := List.mem_of_find?_eq_some hf
      have hmdb : m ∈ db := (mem_dueFilter.mp hmem).1
      have hpres : (statusOf (markProcessing db
          ((dueFilter now db).map (fun x => x.id))) m.id).isSome := by
        rw [statusOf_markProcessing]
        rw [Option.isSome_map']
        have := statusOf_isSome_of_mem db m hmdb
        unfold statusOf at this
        rwa [Option.isSome_map'] at this
      rw [← hid]
      exact statusOf_dispatchAll_mem send instDb _ _ m hdue_nd hmem hpres
  | none =>
      have hnone : ∀ x ∈ dueFilter now db, x.id ≠ id := by
        intro x hx
        have := List.find?_eq_none.mp hf x hx
        simpa using this
      rw [statusOf_dispatchAll_not_mem send instDb _ _ id hnone]
      rw [statusOf_markProcessing]
      unfold statusOf
      cases hg : findScheduledMessageById db id with
      | none => rfl
      | some m =>
          have hid : m.id = id := findById_id_eq hg
          have hc : ((dueFilter now db).map (fun m => m.id)).contains m.id = false := by
            rw [← Bool.not_eq_true]
            intro hc
            rcases List.contains_iff_exists_mem_beq.mp hc with ⟨a, ha, hab⟩
            rcases List.mem_map.mp ha with ⟨x, hx, hxa⟩
            have : m.id = x.id := by rw [← hxa] at hab; simpa using hab
            exact hnone x hx (by rw [← this, hid])
          simp only [Option.map_some']
          rw [hc]
          simp

/-- The final statuses the scheduler writes are `SENT` or `FAILED`. -/
theorem dispatchStatus_sent_or_failed (send : SendResult)
    (d : Option InstallationData) (b : Bool) :
    dispatchStatus send d b = Status.SENT ∨ dispatchStatus send d b = Status.FAILED := by
  unfold dispatchStatus
  cases d with
  | none => exact Or.inr rfl
  | some dd =>
      dsimp only
      split
      · exact Or.inr rfl
      · cases send
        · exact Or.inl rfl
        · exact Or.inr rfl
        · exact Or.inr rfl

/-- Any dispatch that is not an explicit gateway ok ends in `FAILED`. -/
theorem dispatchStatus_failed_of_not_ok (send : SendResult)
    (d : Option InstallationData) (b : Bool) (h : send ≠ SendResult.ok) :
    dispatchStatus send d b = Status.FAILED := by
  unfold dispatchStatus
  cases d with
  | none => rfl
  | some dd =>
      dsimp only
      split
      · rfl
      · cases send
        · exact absurd rfl h
        · rfl
        · rfl

/-- Deleting an id removes it from lookup. -/
theorem findById_delete_self (db : List ScheduledMessage) (id : String) :
    findScheduledMessageById (deleteScheduledMessageById db id) id = none := by
  unfold findScheduledMessageById deleteScheduledMessageById
  rw [List.find?_eq_none]
  intro x hx
  have hq := (List.mem_filter.mp hx).2
  simp only [bne_iff_ne, ne_eq] at hq
  simp [hq]

/-- C1: `findAndMarkDueMessages` performs the due-message selection and the
`PROCESSING` write as two separate awaited store calls, not one atomic claim.
In the reachable interleaving of two concurrent invocations in which both
`findMany` reads complete before either `updateMany` write, the single due
`PENDING` message `msgDue` appears in BOTH claimed batches — each cycle then
dispatches it — contradicting the claimed atomic-claim property. -/
theorem nonatomic_claim_double_claims :
    (overlappedClaims 1000 [msgDue]).1 = [msgDue] ∧
    (overlappedClaims 1000 [msgDue]).2.1 = [msgDue] ∧
    msgDue ∈ (overlappedClaims 1000 [msgDue]).1 ∧
    msgDue ∈ (overlappedClaims 1000 [msgDue]).2.1 := by
  decide

/-- C2 counterexample: cancelling message "m1", whose status is `SENT`,
does not fail with any InvalidState error — the endpoint deletes the row and
reports success, so the claim is false at this input. -/
theorem cancel_sent_message_succeeds :
    (cancelScheduledMessage [instExpiring] [msgSent] (some "U1") (some "T1") "m1").1 =
      CancelResult.cancelled ∧
    findScheduledMessageById
      (cancelScheduledMessage [instExpiring] [msgSent] (some "U1") (some "T1") "m1").2
      "m1" = none := by
  decide

/-- C2 (amended): for an authenticated caller whose installation owns the
message, cancel fails with NotFound when the id is absent, and otherwise
deletes the message whatever its status — PENDING, PROCESSING, SENT and
FAILED alike; the endpoint has no InvalidState check. -/
theorem cancel_deletes_regardless_of_status (instDb : List SlackInstallation)
    (db : List ScheduledMessage) (userId teamId : Option String) (id : String)
    (inst : SlackInstallation)
    (hu : truthyS userId = true) (ht : truthyS teamId = true)
    (hinst : findInstallationByTeamIdAndUserId instDb (teamId.getD "")
      (userId.getD "") = some inst) :
    (findScheduledMessageById db id = none →
      cancelScheduledMessage instDb db userId teamId id =
        (CancelResult.messageNotFound, db)) ∧
    (∀ m, findScheduledMessageById db id = some m → m.installationId = inst.id →
      cancelScheduledMessage instDb db userId teamId id =
        (CancelResult.cancelled, deleteScheduledMessageById db id) ∧
      findScheduledMessageById (deleteScheduledMessageById db id) id = none) := by
  constructor
  · intro hnone
    unfold cancelScheduledMessage
    rw [hu, ht, hinst, hnone]
    simp
  · intro m hm hown
    refine ⟨?_, findById_delete_self db id⟩
    unfold cancelScheduledMessage
    rw [hu, ht, hinst, hm]
    simp [hown]

/-- C2 witness: the amended cancel behaviour evaluated on the SENT message
"m1" owned by installation "i1". -/
theorem cancel_deletes_regardless_of_status_witness :
    cancelScheduledMessage [instExpiring] [msgSent] (some "U1") (some "T1") "m1" =
      (CancelResult.cancelled, deleteScheduledMessageById [msgSent] "m1") ∧
    findScheduledMessageById (deleteScheduledMessageById [msgSent] "m1") "m1" = none :=
  (cancel_deletes_regardless_of_status [instExpiring] [msgSent]
      (some "U1") (some "T1") "m1" instExpiring (by decide) (by decide)
      (by decide)).2 msgSent (by decide) (by decide)

/-- C3 counterexample: the bot credential of installation "i1" (joined to
the due message "m1") expires 300 s after the epoch, i.e. within ten minutes
of `now = 1000 ms`, and a refresh is available; `getValidAccessToken` would
refresh and yield "newtok", but the scheduler's dispatch uses the stale
stored token "oldtok" — it never invokes the token service. -/
theorem scheduler_bypasses_token_service :
    (runCycle (fun _ => SendResult.ok) 1000 [instExpiring] [msgDue]).1 =
      [{ msgId := "m1", usedToken := some "oldtok", finalStatus := Status.SENT }] ∧
    (getValidAccessToken envRefreshOk [instExpiring] "T1" (some "U1")).result =
      some "newtok" ∧
    (getValidAccessToken envRefreshOk [instExpiring] "T1" (some "U1")).refreshCalls = 1 := by
  decide

/-- C3 (amended): for every claimed message the scheduler reads the send
token directly from the joined stored installation record via the defensive
field lookup (`bot?.token || access_token || bot_token`, or the user-side
fields when `sendAsUser`), with no expiry check and no refresh call. -/
theorem scheduler_token_from_stored_record (send : String → SendResult)
    (now : Nat) (instDb : List SlackInstallation) (db : List ScheduledMessage)
    (m : ScheduledMessage) (hm : m ∈ (findAndMarkDueMessages now db).1) :
    dispatchRecord (send m.id) (joinInstallation instDb m) m ∈
      (runCycle send now instDb db).1 ∧
    (dispatchRecord (send m.id) (joinInstallation instDb m) m).usedToken =
      ((joinInstallation instDb m).map SlackInstallation.data).bind
        (fun d => schedulerToken d m.sendAsUser) := by
  constructor
  · exact List.mem_map_of_mem _ hm
  · rfl

/-- C3 witness: the amended statement evaluated on the due message "m1" and
installation "i1". -/
theorem scheduler_token_from_stored_record_witness :
    dispatchRecord SendResult.ok (joinInstallation [instExpiring] msgDue) msgDue ∈
      (runCycle (fun _ => SendResult.ok) 1000 [instExpiring] [msgDue]).1 ∧
    (dispatchRecord SendResult.ok (joinInstallation [instExpiring] msgDue) msgDue).usedToken =
      ((joinInstallation [instExpiring] msgDue).map SlackInstallation.data).bind
        (fun d => schedulerToken d msgDue.sendAsUser) :=
  scheduler_token_from_stored_record (fun _ => SendResult.ok) 1000
    [instExpiring] [msgDue] msgDue (by decide)

/-- C4 counterexample: installation "i2" holds a user sub-credential that
expired long ago (expiresAt = 1 s) together with a refresh token, yet
`getUserToken` returns the stale stored token "oldu"; the user-token path
has no expiry check and no refresh-grant call at all. -/
theorem user_token_never_refreshed :
    getUserToken [instUserExpired] "T1" "U1" = some "oldu" := by
  decide

/-- C4 (amended): when the user sub-credential is selected, the code returns
exactly `user?.token || null` of the stored record — the result is a pure
function of the stored user token, with no expiry check, no refresh and no
store write, regardless of `expiresAt` and `refreshToken`. -/
theorem getUserToken_returns_raw_stored_token (db : List SlackInstallation)
    (teamId userId : String) (inst : SlackInstallation)
    (hfind : findInstallationByTeamIdAndUserId db teamId userId = some inst) :
    getUserToken db teamId userId =
      (if truthyS (inst.data.user.bind SubCred.token) then
        inst.data.user.bind SubCred.token else none) := by
  unfold getUserToken
  rw [hfind]

/-- C4 witness: the amended statement evaluated on installation "i2". -/
theorem getUserToken_returns_raw_stored_token_witness :
    getUserToken [instUserExpired] "T1" "U1" =
      (if truthyS (instUserExpired.data.user.bind SubCred.token) then
        instUserExpired.data.user.bind SubCred.token else none) :=
  getUserToken_returns_raw_stored_token [instUserExpired] "T1" "U1"
    instUserExpired (by decide)

/-- Core of the fresh-token path: with `bot` present, all three fields
truthy and `expiresAt` beyond the ten-minute margin, `resolveBotToken`
returns the stored token, writes nothing and makes no refresh call. -/
theorem resolveBotToken_fresh (env : TokenEnv) (db : List SlackInstallation)
    (inst : SlackInstallation) (bot : SubCred) (exp : Nat)
    (hbot : inst.data.bot = some bot)
    (htok : truthyS bot.token = true)
    (hrt : truthyS bot.refreshToken = true)
    (hexp : bot.expiresAt = some exp)
    (hfresh : env.now + 10 * 60 * 1000 < exp * 1000) :
    resolveBotToken env db inst = { result := bot.token, db := db, refreshCalls := 0 } := by
  have hN : truthyN bot.expiresAt = true := by
    rw [hexp]
    unfold truthyN
    simp only [bne_iff_ne, ne_eq, decide_eq_true_eq]
    omega
  unfold resolveBotToken
  rw [hbot]
  dsimp only
  rw [hN, hrt, htok, hexp]
  simp only [Bool.not_true, Bool.or_self, Bool.false_or, Option.getD_some]
  have hg : exp * 1000 > env.now + 10 * 60 * 1000 := hfresh
  simp [hg]

/-- Core of the stale path: with `bot` present, all three fields truthy and
`expiresAt` inside the ten-minute margin, `resolveBotToken` hands off to
`refreshBotToken` with the stored token. -/
theorem resolveBotToken_stale (env : TokenEnv) (db : List SlackInstallation)
    (inst : SlackInstallation) (bot : SubCred) (exp : Nat)
    (hbot : inst.data.bot = some bot)
    (htok : truthyS bot.token = true)
    (hrt : truthyS bot.refreshToken = true)
    (hexp : bot.expiresAt = some exp) (hexp0 : exp ≠ 0)
    (hstale : exp * 1000 ≤ env.now + 10 * 60 * 1000) :
    resolveBotToken env db inst =
      refreshBotToken env db inst.id inst.data (bot.token.getD "") := by
  have hN : truthyN bot.expiresAt = true := by
    rw [hexp]
    unfold truthyN
    simp only [bne_iff_ne, ne_eq, decide_eq_true_eq]
    exact hexp0
  unfold resolveBotToken
  rw [hbot]
  dsimp only
  rw [hN, hrt, htok, hexp]
  simp only [Bool.not_true, Bool.or_self, Bool.false_or, Option.getD_some]
  have hng : ¬ (exp * 1000 > env.now + 10 * 60 * 1000) := by omega
  simp [hng]

/-- C5: a stored bot sub-credential holding a token, a refresh token and an
`expiresAt` more than ten minutes past `now` is returned unchanged by
`getValidAccessToken` on either lookup path: same token, untouched store,
zero refresh calls. -/
theorem fresh_token_returned_unchanged (env : TokenEnv)
    (db : List SlackInstallation) (teamId : String) (userId : Option String)
    (inst : SlackInstallation) (bot : SubCred) (exp : Nat)
    (hlookup : (truthyS userId = true ∧
        findInstallationByTeamIdAndUserId db teamId (userId.getD "") = some inst) ∨
      (truthyS userId = false ∧ findFirstByTeamId db teamId = some inst) ∨
      (findInstallationByTeamIdAndUserId db teamId (userId.getD "") = none ∧
        findFirstByTeamId db teamId = some inst))
    (hbot : inst.data.bot = some bot)
    (htok : truthyS bot.token = true)
    (hrt : truthyS bot.refreshToken = true)
    (hexp : bot.expiresAt = some exp)
    (hfresh : env.now + 10 * 60 * 1000 < exp * 1000) :
    getValidAccessToken env db teamId userId =
      { result := bot.token, db := db, refreshCalls := 0 } := by
  have hcore := resolveBotToken_fresh env db inst bot exp hbot htok hrt hexp hfresh
  unfold getValidAccessToken getValidAccessTokenFallback
  rcases hlookup with ⟨hu, hx⟩ | ⟨hu, hx⟩ | ⟨hmiss, hx⟩
  · rw [hu, hx]
    simp only [if_true]
    exact hcore
  · rw [hu]
    simp only [Bool.false_eq_true, if_false]
    rw [hx]
    exact hcore
  · by_cases hu : truthyS userId = true
    · rw [hu, hmiss, hx]
      simp only [if_true]
      exact hcore
    · rw [Bool.not_eq_true] at hu
      rw [hu]
      simp only [Bool.false_eq_true, if_false]
      rw [hx]
      exact hcore

/-- C5 witness: the fresh bot credential of installation "i4" is returned
unchanged with no refresh call and no write. -/
theorem fresh_token_returned_unchanged_witness :
    getValidAccessToken envRefreshFail [instFresh] "T2" (some "U3") =
      { result := instFresh.data.bot.bind SubCred.token, db := [instFresh],
        refreshCalls := 0 } := by
  have h := fresh_token_returned_unchanged envRefreshFail [instFresh] "T2"
    (some "U3") instFresh
    { token := some "freshtok", refreshToken := some "r9", expiresAt := some 1000000 }
    1000000
    (Or.inl ⟨by decide, by decide⟩) (by decide) (by decide) (by decide)
    (by decide) (by decide)
  rw [h]
  rfl

/-- A refresh hand-off makes exactly one refresh-grant call, in both the
success and the failure branch. -/
theorem refreshBotToken_calls (env : TokenEnv) (db : List SlackInstallation)
    (iid : String) (idata : InstallationData) (tok : String) :
    (refreshBotToken env db iid idata tok).refreshCalls = 1 := by
  unfold refreshBotToken
  cases env.refreshOutcome <;> rfl

/-- No per-installation resolution makes more than one refresh call. -/
theorem resolveBotToken_calls_le (env : TokenEnv) (db : List SlackInstallation)
    (inst : SlackInstallation) :
    (resolveBotToken env db inst).refreshCalls ≤ 1 := by
  unfold resolveBotToken
  cases inst.data.bot with
  | none => exact Nat.zero_le 1
  | some bot =>
      dsimp only
      split
      · exact Nat.zero_le 1
      · split
        · exact Nat.zero_le 1
        · rw [refreshBotToken_calls]

/-- C6: when the stored bot credential is inside the refresh window and the
refresh-grant call fails (throws), the token service returns the OLD access
token instead of an unavailable result and writes nothing, the refresh was
attempted exactly once — and, globally, no invocation of
`getValidAccessToken` ever makes more than one refresh call (no retry). -/
theorem refresh_failure_returns_old_token (env : TokenEnv)
    (db : List SlackInstallation) (inst : SlackInstallation)
    (bot : SubCred) (exp : Nat) (tok : String)
    (hout : env.refreshOutcome = none)
    (hbot : inst.data.bot = some bot)
    (htok : bot.token = some tok) (htokT : truthyS bot.token = true)
    (hrt : truthyS bot.refreshToken = true)
    (hexp : bot.expiresAt = some exp) (hexp0 : exp ≠ 0)
    (hstale : exp * 1000 ≤ env.now + 10 * 60 * 1000) :
    resolveBotToken env db inst =
      { result := some tok, db := db, refreshCalls := 1 } ∧
    (∀ (e : TokenEnv) (d : List SlackInstallation) (t : String)
        (u : Option String), (getValidAccessToken e d t u).refreshCalls ≤ 1) := by
  constructor
  · rw [resolveBotToken_stale env db inst bot exp hbot htokT hrt hexp hexp0 hstale,
      htok]
    unfold refreshBotToken
    rw [hout]
    rfl
  · intro e d t u
    unfold getValidAccessToken
    split
    · cases hf : findInstallationByTeamIdAndUserId d t (u.getD "") with
      | some i => exact resolveBotToken_calls_le e d i
      | none =>
          unfold getValidAccessTokenFallback
          cases hg : findFirstByTeamId d t with
          | none => exact Nat.zero_le 1
          | some i => exact resolveBotToken_calls_le e d i
    · unfold getValidAccessTokenFallback
      cases hg : findFirstByTeamId d t with
      | none => exact Nat.zero_le 1
      | some i => exact resolveBotToken_calls_le e d i

/-- C6 witness: the expiring bot credential of installation "i1" with a
failing refresh yields the old token "oldtok" after exactly one attempt. -/
theorem refresh_failure_returns_old_token_witness :
    resolveBotToken envRefreshFail [instExpiring] instExpiring =
      { result := some "oldtok", db := [instExpiring], refreshCalls := 1 } ∧
    (∀ (e : TokenEnv) (d : List SlackInstallation) (t : String)
        (u : Option String), (getValidAccessToken e d t u).refreshCalls ≤ 1) :=
  refresh_failure_returns_old_token envRefreshFail [instExpiring] instExpiring
    { token := some "oldtok", refreshToken := some "r1", expiresAt := some 300 }
    300 "oldtok" (by decide) (by decide) (by decide) (by decide) (by decide)
    (by decide) (by decide) (by decide)

/-- C7: a successful refresh persists exactly one updated installation row:
its bot object now holds the new access token, the new refresh token and
`expiresAt = now / 1000 + expires_in`; every other field of the record — in
particular the user sub-credential — and every other row are untouched; and
the new access token is returned to the caller. -/
theorem refresh_success_updates_bot_only (env : TokenEnv)
    (db : List SlackInstallation) (inst : SlackInstallation)
    (bot : SubCred) (exp : Nat) (r : RefreshResult)
    (hout : env.refreshOutcome = some r)
    (hbot : inst.data.bot = some bot)
    (htokT : truthyS bot.token = true)
    (hrt : truthyS bot.refreshToken = true)
    (hexp : bot.expiresAt = some exp) (hexp0 : exp ≠ 0)
    (hstale : exp * 1000 ≤ env.now + 10 * 60 * 1000) :
    resolveBotToken env db inst =
      { result := some r.access_token
        db := db.map (fun i =>
          if i.id == inst.id then
            { i with data := { inst.data with bot := some {
                token := some r.access_token
                refreshToken := some r.refresh_token
                expiresAt := some (env.now / 1000 + r.expires_in) } } }
          else i)
        refreshCalls := 1 } ∧
    ({ inst.data with bot := some {
        token := some r.access_token
        refreshToken := some r.refresh_token
        expiresAt := some (env.now / 1000 + r.expires_in) } }).user =
      inst.data.user := by
  constructor
  · rw [resolveBotToken_stale env db inst bot exp hbot htokT hrt hexp hexp0 hstale]
    unfold refreshBotToken
    rw [hout]
  · rfl

/-- C7 witness: refreshing the expiring bot credential of installation "i1"
with a successful grant persists the new bot object (token "newtok",
refresh token "r2", expiresAt 1 + 43200) and returns "newtok". -/
theorem refresh_success_updates_bot_only_witness :
    (resolveBotToken envRefreshOk [instExpiring] instExpiring).result =
      some "newtok" ∧
    (resolveBotToken envRefreshOk [instExpiring] instExpiring).db =
      [{ instExpiring with data := { instExpiring.data with bot := some {
          token := some "newtok", refreshToken := some "r2",
          expiresAt := some 43201 } } }] ∧
    ({ instExpiring.data with bot := some {
        token := some "newtok", refreshToken := some "r2",
        expiresAt := some 43201 } }).user = instExpiring.data.user := by
  have h := refresh_success_updates_bot_only envRefreshOk [instExpiring]
    instExpiring
    { token := some "oldtok", refreshToken := some "r1", expiresAt := some 300 }
    300 { access_token := "newtok", refresh_token := "r2", expires_in := 43200 }
    (by decide) (by decide) (by decide) (by decide) (by decide) (by decide)
    (by decide)
  refine ⟨?_, ?_, h.2⟩
  · rw [h.1]
  · rw [h.1]
    decide

/-- Unrefreshable bot credential (no refresh token): the stored token is
returned as-is with no refresh call and no write. -/
theorem resolveBotToken_no_refresh (env : TokenEnv)
    (db : List SlackInstallation) (inst : SlackInstallation) (bot : SubCred)
    (hbot : inst.data.bot = some bot)
    (hrt : bot.refreshToken = none)
    (htokT : truthyS bot.token = true) :
    resolveBotToken env db inst =
      { result := bot.token, db := db, refreshCalls := 0 } := by
  unfold resolveBotToken
  rw [hbot]
  dsimp only
  rw [hrt]
  have hc : (!truthyN bot.expiresAt || !truthyS none || !truthyS bot.token) = true := by
    simp [truthyS]
  rw [hc]
  rw [htokT]
  simp

/-- C10: when the (teamId, userId) unique lookup misses but the team has an
installation, `getValidAccessToken` does not fail with a no-installation
result: both with the userId supplied and with it omitted it resolves the
bot credential of the first installation found by teamId alone — possibly
another user's — and, when that credential is non-refreshable, returns its
stored bot token unchanged. -/
theorem fallback_to_first_team_installation (env : TokenEnv)
    (db : List SlackInstallation) (teamId uid : String)
    (inst : SlackInstallation)
    (hu : truthyS (some uid) = true)
    (hmiss : findInstallationByTeamIdAndUserId db teamId uid = none)
    (hfirst : findFirstByTeamId db teamId = some inst) :
    getValidAccessToken env db teamId (some uid) = resolveBotToken env db inst ∧
    getValidAccessToken env db teamId none = resolveBotToken env db inst ∧
    (∀ (bot : SubCred) (tok : String), inst.data.bot = some bot →
      bot.token = some tok → truthyS bot.token = true →
      bot.refreshToken = none →
      (getValidAccessToken env db teamId (some uid)).result = some tok ∧
      (getValidAccessToken env db teamId (some uid)).db = db) := by
  have h1 : getValidAccessToken env db teamId (some uid) =
      resolveBotToken env db inst := by
    unfold getValidAccessToken getValidAccessTokenFallback
    rw [hu]
    simp only [if_true, Option.getD_some]
    rw [hmiss, hfirst]
  have h2 : getValidAccessToken env db teamId none =
      resolveBotToken env db inst := by
    unfold getValidAccessToken getValidAccessTokenFallback
    have : truthyS (none : Option String) = false := rfl
    rw [this]
    simp only [Bool.false_eq_true, if_false]
    rw [hfirst]
  refine ⟨h1, h2, ?_⟩
  intro bot tok hbot htok htokT hrt
  rw [h1, resolveBotToken_no_refresh env db inst bot hbot hrt htokT, htok]
  exact ⟨rfl, rfl⟩

/-- C10 witness: for team "T1" the lookup ("T1","U1") misses, and the token
of the other user's installation "i3" is returned. -/
theorem fallback_to_first_team_installation_witness :
    getValidAccessToken envRefreshFail [instOtherUser] "T1" (some "U1") =
      resolveBotToken envRefreshFail [instOtherUser] instOtherUser ∧
    getValidAccessToken envRefreshFail [instOtherUser] "T1" none =
      resolveBotToken envRefreshFail [instOtherUser] instOtherUser ∧
    (getValidAccessToken envRefreshFail [instOtherUser] "T1" (some "U1")).result =
      some "othertok" ∧
    instOtherUser.userId ≠ "U1" := by
  have h := fallback_to_first_team_installation envRefreshFail [instOtherUser]
    "T1" "U1" instOtherUser (by decide) (by decide) (by decide)
  refine ⟨h.1, h.2.1, ?_, by decide⟩
  exact (h.2.2 { token := some "othertok", refreshToken := none, expiresAt := none }
    "othertok" (by decide) (by decide) (by decide) (by decide)).1

/-- C9: dispatch of a claimed batch is per-message isolated: each claimed
message's final stored status is exactly the outcome of its own dispatch —
`SENT` on gateway ok; `FAILED` on missing installation data, missing token,
a gateway-reported error or a thrown exception — a dispatch record exists
for it, and its final status is unchanged under any alteration of the other
messages' gateway outcomes. -/
theorem batch_failure_isolated (send : String → SendResult) (now : Nat)
    (instDb : List SlackInstallation) (db : List ScheduledMessage)
    (m : ScheduledMessage) (hnd : (db.map (fun x => x.id)).Nodup)
    (hm : m ∈ (findAndMarkDueMessages now db).1) :
    statusOf (runCycle send now instDb db).2 m.id =
      some (dispatchStatus (send m.id)
        ((joinInstallation instDb m).map SlackInstallation.data) m.sendAsUser) ∧
    dispatchRecord (send m.id) (joinInstallation instDb m) m ∈
      (runCycle send now instDb db).1 ∧
    (send m.id ≠ SendResult.ok →
      dispatchStatus (send m.id)
        ((joinInstallation instDb m).map SlackInstallation.data) m.sendAsUser =
        Status.FAILED) ∧
    (∀ send' : String → SendResult, send' m.id = send m.id →
      statusOf (runCycle send' now instDb db).2 m.id =
        statusOf (runCycle send now instDb db).2 m.id) := by
  have hmem : m ∈ dueFilter now db := hm
  have hfind : (dueFilter now db).find? (fun x => x.id == m.id) = some m :=
    findById_of_mem (dueFilter now db) m (dueFilter_ids_nodup now db hnd) hmem
  have hmain : ∀ s : String → SendResult,
      statusOf (runCycle s now instDb db).2 m.id =
        some (dispatchStatus (s m.id)
          ((joinInstallation instDb m).map SlackInstallation.data) m.sendAsUser) := by
    intro s
    rw [statusOf_runCycle s now instDb db m.id hnd, hfind]
    rfl
  refine ⟨hmain send, List.mem_map_of_mem _ hmem, ?_, ?_⟩
  · intro hne
    exact dispatchStatus_failed_of_not_ok _ _ _ hne
  · intro send' heq
    rw [hmain send', hmain send, heq]

/-- C9 witness: the due message "m1" whose own gateway call throws ends
`FAILED`, evaluated through the isolation theorem. -/
theorem batch_failure_isolated_witness :
    statusOf (runCycle (fun _ => SendResult.threw) 1000 [instExpiring]
      [msgDue]).2 msgDue.id = some Status.FAILED ∧
    SendResult.threw ≠ SendResult.ok := by
  have h := batch_failure_isolated (fun _ => SendResult.threw) 1000
    [instExpiring] [msgDue] msgDue (by decide) (by decide)
  refine ⟨?_, by decide⟩
  rw [h.1]
  decide

/-- C8: the status field only moves forward. Across every system operation
(create, a full scheduler cycle, cancel, disconnect cleanup), a message that
exists before and after the operation never changes status once it is
`SENT` or `FAILED`, and never returns to `PENDING` from any other status. -/
theorem status_forward_only (now : Nat) (instDb : List SlackInstallation)
    (db : List ScheduledMessage) (op : SysOp) (id : String) (s s' : Status)
    (hnd : (db.map (fun x => x.id)).Nodup)
    (hbefore : statusOf db id = some s)
    (hafter : statusOf (applyOp now instDb db op) id = some s') :
    ((s = Status.SENT ∨ s = Status.FAILED) → s' = s) ∧
    (s' = Status.PENDING → s = Status.PENDING) := by
  have hsub : ∀ (q : ScheduledMessage → Bool),
      statusOf (db.filter q) id = some s' → s' = s := by
    intro q h
    obtain ⟨m', hm', hid', hst'⟩ := statusOf_eq_some_elim h
    obtain ⟨m, hmm, hid, hst⟩ := statusOf_eq_some_elim hbefore
    have hmem' : m' ∈ db := (List.mem_filter.mp hm').1
    have hmm' : m = m' := eq_of_mem_same_id hnd hmm hmem' (by rw [hid, hid'])
    rw [← hst', ← hmm', hst]
  cases op with
  | create m0 =>
      have heq : s' = s := by
        unfold applyOp createScheduledMessage at hafter
        unfold statusOf findScheduledMessageById at hbefore hafter
        rw [List.find?_append] at hafter
        cases hf : List.find? (fun m => m.id == id) db with
        | none => rw [hf] at hbefore; cases hbefore
        | some mb =>
            rw [hf] at hbefore hafter
            have hafter' : some mb.status = some s' := hafter
            have h1 : mb.status = s := by injection hbefore
            have h2 : mb.status = s' := by injection hafter'
            rw [← h1, ← h2]
      exact ⟨fun _ => heq, fun h => heq ▸ h⟩
  | cancel i =>
      have heq : s' = s := hsub (fun m => m.id != i) hafter
      exact ⟨fun _ => heq, fun h => heq ▸ h⟩
  | disconnect iid =>
      have heq : s' = s := hsub (fun m => m.installationId != iid) hafter
      exact ⟨fun _ => heq, fun h => heq ▸ h⟩
  | cycle send =>
      unfold applyOp at hafter
      rw [statusOf_runCycle send now instDb db id hnd] at hafter
      cases hf : (dueFilter now db).find? (fun x => x.id == id) with
      | none =>
          rw [hf] at hafter
          have hafter' : statusOf db id = some s' := hafter
          rw [hbefore] at hafter'
          have heq : s' = s := by injection hafter' with h; exact h.symm
          exact ⟨fun _ => heq, fun h => heq ▸ h⟩
      | some m =>
          rw [hf] at hafter
          have hafter' : (some ((dispatchRecord (send m.id)
              (joinInstallation instDb m) m).finalStatus) : Option Status) =
              some s' := hafter
          have hmem := List.mem_of_find?_eq_some hf
          obtain ⟨hmdb, _, hpend⟩ := mem_dueFilter.mp hmem
          have hid : m.id = id := by simpa using List.find?_some hf
          obtain ⟨mb, hmb, hmbid, hmbst⟩ := statusOf_eq_some_elim hbefore
          have hmbm : mb = m := eq_of_mem_same_id hnd hmb hmdb (by rw [hmbid, hid])
          have hs : s = Status.PENDING := by rw [← hmbst, hmbm, hpend]
          have hs' : s' = dispatchStatus (send m.id)
              ((joinInstallation instDb m).map SlackInstallation.data)
              m.sendAsUser := by
            injection hafter' with h
            exact h.symm
          constructor
          · intro hcon
            rcases hcon with h | h <;> (rw [hs] at h; cases h)
          · intro hp
            rcases dispatchStatus_sent_or_failed (send m.id)
              ((joinInstallation instDb m).map SlackInstallation.data)
              m.sendAsUser with h | h
            · rw [hs', h] at hp
              cases hp
            · rw [hs', h] at hp
              cases hp

/-- C8 witness: a full scheduler cycle over a table holding only the SENT
message "m1" leaves it SENT, evaluated through the forward-only theorem. -/
theorem status_forward_only_witness :
    ((Status.SENT = Status.SENT ∨ Status.SENT = Status.FAILED) →
      Status.SENT = Status.SENT) ∧
    (Status.SENT = Status.PENDING → Status.SENT = Status.PENDING) :=
  status_forward_only 1000 [instExpiring] [msgSent]
    (SysOp.cycle (fun _ => SendResult.ok)) "m1" Status.SENT Status.SENT
    (by decide) (by decide) (by decide)

end SlackConnect
